import Mathlib

/-!
Verification model of the struct tag walker of `tkrop/go-config`
(`internal/reflect/walker.go`).

The Go walker traverses an arbitrary value tree (structs, pointers,
slices, arrays, maps, scalars) using reflection, emits a
`(path, value)` callback for every discovered default registration and
accumulates conversion errors on the walker instance.  This file embeds
the walker shallowly:

* Go runtime types are the inductive `Ty`, Go runtime values the
  inductive `Value`.  A struct type and a struct value carry the field
  list `(name, default-tag, rename-tag, type)`; the two tag strings are
  the values of `field.Tag.Get(w.dtag)` and `field.Tag.Get(w.mtag)`
  pre-resolved for the walker's configured tag names (an absent Go tag
  is the empty string, exactly as `Tag.Get` reports it).  A pointer
  value stores the zero value of its pointee type, which is the only
  use the walker makes of the pointee type (`reflect.New(t.Elem())`).
* The callback effect of `w.call(path, value)` is modelled by returning
  the list of emitted registrations in order; the mutation of
  `w.errors` is modelled by returning the list of appended errors in
  order.  `TagWalker.Walk` threads the instance state explicitly and
  returns the updated walker together with the registrations and the
  joined error (`none` models a `nil` joined error).
* The external collaborators `strings.ToLower`, `strings.Split`,
  `strings.TrimSpace`, `strconv.Itoa`, `strconv.ParseComplex` and
  `yaml.Unmarshal` are modelled by executable character-level
  functions.  The YAML model covers plain scalars (strings, decimal
  integers, booleans, null) and flat flow sequences, which is the
  fragment the walker's tag literals use; targets outside the fragment
  decode to an error.  The complex-literal model covers integer
  components (`"64+2i"`); float rounding at 32/64-bit component width
  is not modelled, the bit size is threaded but does not change the
  parsed value.
-/

namespace GoConfig

/-! ### Character-level models of the Go string helpers -/

/-- Model of ASCII lower-casing of a single character, as
`strings.ToLower` acts on the ASCII paths used by the walker. -/
def lowerChar (c : Char) : Char :=
  if c.isUpper then Char.ofNat (c.toNat + 32) else c

/-- Model of `strings.ToLower` (ASCII fragment). -/
def strLower (s : String) : String := ⟨s.data.map lowerChar⟩

/-- Splits a character list at every comma; models `strings.Split`
with separator `","` (the only separator the walker uses). -/
def splitOnComma : List Char → List (List Char)
  | [] => [[]]
  | c :: rest =>
    let r := splitOnComma rest
    if c = ',' then [] :: r
    else
      match r with
      | g :: gs => (c :: g) :: gs
      | [] => [[c]]

/-- Model of `strings.Split(s, ",")`. -/
def strSplitComma (s : String) : List String :=
  (splitOnComma s.data).map (fun l => ⟨l⟩)

/-- ASCII whitespace test used by the trimming model. -/
def isWS (c : Char) : Bool := c = ' ' || c = '\t' || c = '\n' || c = '\r'

/-- Model of `strings.TrimSpace` (ASCII fragment). -/
def strTrim (s : String) : String :=
  ⟨((s.data.dropWhile isWS).reverse.dropWhile isWS).reverse⟩

/-- Decimal value of a digit character. -/
def digitVal (c : Char) : Option Nat :=
  let n := c.toNat
  if 48 ≤ n ∧ n ≤ 57 then some (n - 48) else none

/-- Folds a digit list into a number; fails on a non-digit. -/
def natFromDigitsAux (acc : Nat) : List Char → Option Nat
  | [] => some acc
  | c :: rest =>
    match digitVal c with
    | some d => natFromDigitsAux (acc * 10 + d) rest
    | none => none

/-- Number denoted by a non-empty all-digit list. -/
def digitsToNat : List Char → Option Nat
  | [] => none
  | ds => natFromDigitsAux 0 ds

/-- Model of the decimal integer parsing performed by the YAML decoder
on integer targets. -/
def strToInt (s : String) : Option Int :=
  match s.data with
  | '+' :: ds => (digitsToNat ds).map Int.ofNat
  | '-' :: ds => (digitsToNat ds).map (fun n => -(n : Int))
  | ds => (digitsToNat ds).map Int.ofNat

/-- Takes the longest digit run from the front of a character list. -/
def takeDigits : List Char → List Char × List Char
  | [] => ([], [])
  | c :: rest =>
    match digitVal c with
    | some _ => let (ds, r) := takeDigits rest; (c :: ds, r)
    | none => ([], c :: rest)

/-- Parses an optionally signed decimal integer from the front of a
character list, returning the remainder. -/
def parseSignedInt (cs : List Char) : Option (Int × List Char) :=
  match cs with
  | '+' :: rest => parseSignedNat rest
  | '-' :: rest => (parseSignedNat rest).map (fun p => (-p.1, p.2))
  | _ => parseSignedNat cs
where
  /-- Unsigned part of `parseSignedInt`. -/
  parseSignedNat (cs : List Char) : Option (Int × List Char) :=
    let (ds, r) := takeDigits cs
    match digitsToNat ds with
    | some n => some ((n : Int), r)
    | none => none

/-- Model of `strconv.ParseComplex` restricted to integer components:
accepts `a`, `bi`, and `a+bi`/`a-bi` forms and yields the pair
(real, imaginary). -/
def parseComplexLit (s : String) : Option (Int × Int) :=
  match parseSignedInt s.data with
  | none => none
  | some (a, rest) =>
    match rest with
    | [] => some (a, 0)
    | ['i'] => some (0, a)
    | c :: more =>
      if c = '+' || c = '-' then
        match parseSignedInt (c :: more) with
        | some (b, ['i']) => some (a, b)
        | _ => none
      else none

/-! ### Go runtime types and values -/

/-- Model of the Go runtime types the walker distinguishes by
`reflect.Kind`: scalar kinds, pointers, slices, arrays (with length),
string-keyed maps, and structs.  A struct field is the descriptor
`(name, default-tag value, rename-tag value, type)`. -/
inductive Ty where
  | tBool
  | tInt
  | tString
  | tC64
  | tC128
  | tPtr (elem : Ty)
  | tSlice (elem : Ty)
  | tArray (elem : Ty) (n : Nat)
  | tMap (elem : Ty)
  | tStruct (fields : List (String × String × String × Ty))

/-- Field descriptor: name, default-tag value, rename-tag value, and
declared type. -/
abbrev FieldT := String × String × String × Ty

/-- Field name (`field.Name`). -/
def fname (f : FieldT) : String := f.1

/-- Resolved default tag (`field.Tag.Get(w.dtag)`; empty if absent). -/
def fdtag (f : FieldT) : String := f.2.1

/-- Resolved rename tag (`field.Tag.Get(w.mtag)`; empty if absent). -/
def fmtag (f : FieldT) : String := f.2.2.1

/-- Declared field type (`field.Type`). -/
def fty (f : FieldT) : Ty := f.2.2.2

/-- Model of the Go runtime values the walker inspects.  `vInvalid`
models an invalid `reflect.Value` (untyped nil).  A pointer node stores
the zero value of its pointee type (`zelem`) together with the pointee
(`none` models a nil pointer).  Complex scalars carry integer
components, matching the complex-literal model. -/
inductive Value where
  | vInvalid
  | vBool (b : Bool)
  | vInt (n : Int)
  | vStr (s : String)
  | vC64 (re im : Int)
  | vC128 (re im : Int)
  | vPtr (zelem : Value) (inner : Option Value)
  | vSlice (elem : Ty) (xs : List Value)
  | vArray (elem : Ty) (xs : List Value)
  | vMap (elem : Ty) (kvs : List (String × Value))
  | vStruct (fs : List (FieldT × Value))

mutual
/-- Zero value of a type (`reflect.New(t).Elem()`). -/
def Ty.zero : Ty → Value
  | .tBool => .vBool false
  | .tInt => .vInt 0
  | .tString => .vStr ""
  | .tC64 => .vC64 0 0
  | .tC128 => .vC128 0 0
  | .tPtr t => .vPtr t.zero none
  | .tSlice t => .vSlice t []
  | .tArray t n => .vArray t (List.replicate n t.zero)
  | .tMap t => .vMap t []
  | .tStruct fs => .vStruct (Ty.zeroFields fs)

/-- Zero values of a struct's fields. -/
def Ty.zeroFields : List FieldT → List (FieldT × Value)
  | [] => []
  | f :: fs => (f, Ty.zero (fty f)) :: Ty.zeroFields fs
end

mutual
/-- Boolean equality of types; models the `reflect.Type` comparison
`parseType != fieldType`. -/
def Ty.beq : Ty → Ty → Bool
  | .tBool, .tBool => true
  | .tInt, .tInt => true
  | .tString, .tString => true
  | .tC64, .tC64 => true
  | .tC128, .tC128 => true
  | .tPtr a, .tPtr b => Ty.beq a b
  | .tSlice a, .tSlice b => Ty.beq a b
  | .tArray a m, .tArray b n => Ty.beq a b && m == n
  | .tMap a, .tMap b => Ty.beq a b
  | .tStruct fs, .tStruct gs => Ty.beqFields fs gs
  | _, _ => false

/-- Boolean equality of field descriptor lists. -/
def Ty.beqFields : List FieldT → List FieldT → Bool
  | [], [] => true
  | f :: fs, g :: gs =>
    fname f == fname g && fdtag f == fdtag g && fmtag f == fmtag g &&
      Ty.beq (fty f) (fty g) && Ty.beqFields fs gs
  | _, _ => false
end

/-- Model of `reflect.Value.IsValid`. -/
def Value.isValid : Value → Bool
  | .vInvalid => false
  | _ => true

mutual
/-- Model of `reflect.Value.IsZero`: zero scalars, nil pointers, nil
(here: empty) slices and maps, element-wise zero arrays and field-wise
zero structs.  The invalid case is unreachable behind the walker's
`IsValid` guards. -/
def Value.isZero : Value → Bool
  | .vInvalid => true
  | .vBool b => b == false
  | .vInt n => n == 0
  | .vStr s => s == ""
  | .vC64 re im => re == 0 && im == 0
  | .vC128 re im => re == 0 && im == 0
  | .vPtr _ inner => inner.isNone
  | .vSlice _ xs => xs.isEmpty
  | .vArray _ xs => Value.allZero xs
  | .vMap _ kvs => kvs.isEmpty
  | .vStruct fs => Value.fieldsZero fs

/-- All list elements are zero values. -/
def Value.allZero : List Value → Bool
  | [] => true
  | x :: xs => Value.isZero x && Value.allZero xs

/-- All struct field values are zero values. -/
def Value.fieldsZero : List (FieldT × Value) → Bool
  | [] => true
  | (_, v) :: fs => Value.isZero v && Value.fieldsZero fs
end

/-- Model of `reflect.StructField.IsExported`: the field name starts
with an upper-case letter. -/
def isExported (name : String) : Bool :=
  match name.data with
  | [] => false
  | c :: _ => c.isUpper

/-! ### The walker's own helper functions -/

/-- A walker error (`NewErrTagWalker` wraps message, path, offending
value, and the underlying cause into one error value). -/
structure WErr where
  message : String
  path : String
  value : Value
  cause : String

/-- Model of `NewErrTagWalker`. -/
def NewErrTagWalker (message path : String) (value : Value) (cause : String) : WErr :=
  ⟨message, path, value, cause⟩

/-- One emitted registration, i.e. one `w.call(path, value)`. -/
abbrev Reg := String × Value

/-- Model of the `TagWalker` struct: the two configured tag names, the
zero-reporting flag, and the per-instance error accumulator.  The
callback `call` is modelled by returning emitted registrations. -/
structure TagWalker where
  dtag : String
  mtag : String
  zero : Bool
  errors : List WErr

/-- Model of `NewTagWalker` (the callback is externalized into the
walk results). -/
def NewTagWalker (dtag mtag : String) (zero : Bool) : TagWalker :=
  ⟨dtag, mtag, zero, []⟩

/-- Model of `(*TagWalker).path`: joins a parent path and a lower-cased
segment with a dot; an empty parent path yields the segment alone. -/
def TagWalker.path (path name : String) : String :=
  if path ≠ "" then path ++ "." ++ strLower name
  else strLower name

/-- Model of `(*TagWalker).isStruct`: the field type is a struct or a
pointer to a struct. -/
def TagWalker.isStruct (f : FieldT) : Bool :=
  match fty f with
  | .tStruct _ => true
  | .tPtr (.tStruct _) => true
  | _ => false

/-- Model of `(*TagWalker).field`: effective path of a struct field.
An empty rename tag falls back to the field name; a `squash` directive
on a struct-typed field keeps the parent path; an explicit first
component replaces the field name.  (`strings.Split` never returns an
empty list, so the empty-list branch is unreachable.) -/
def TagWalker.field (path : String) (f : FieldT) : String :=
  if fmtag f = "" then TagWalker.path path (fname f)
  else
    match strSplitComma (fmtag f) with
    | [] => TagWalker.path path (fname f)
    | arg0 :: rest =>
      if TagWalker.isStruct f && rest.contains "squash" then path
      else if arg0 ≠ "" then TagWalker.path path arg0
      else TagWalker.path path (fname f)

/-! ### The literal parser (`parseType`, `toComplex` and helpers) -/

/-- Model of `isComplex`: the type is a complex number kind. -/
def isComplex (elemType : Ty) : Bool :=
  match elemType with
  | .tC64 => true
  | .tC128 => true
  | _ => false

/-- Model of `parseType`: type used for the YAML decode of a default
tag.  Complex targets decode as strings, slices/arrays of complex as
string slices; pointer targets are substituted exactly when their
pointee's parse type differs. -/
def parseType (fieldType : Ty) : Ty :=
  match fieldType with
  | .tC64 => .tString
  | .tC128 => .tString
  | .tSlice e => if isComplex e then .tSlice .tString else .tSlice e
  | .tArray e n => if isComplex e then .tSlice .tString else .tArray e n
  | .tPtr t =>
    let ftype := parseType t
    if Ty.beq ftype t then .tPtr t else ftype
  | t => t

/-- Model of `parseValue`: trims the literal and parses one complex
number.  The bit size selects 32- or 64-bit components in Go; the model
keeps exact integer components. -/
def parseValue (str : String) (bitSize : Nat) : Except String (Int × Int) :=
  match parseComplexLit (strTrim str) with
  | some p => .ok p
  | none =>
    .error ("ParseComplex: parsing " ++ strTrim str ++
      ": invalid syntax (bitSize " ++ toString bitSize ++ ")")

/-- Model of `parseSlice`: parses every element, stopping at the first
failure. -/
def parseSlice (strs : List String) (bitSize : Nat) : Except String (List (Int × Int)) :=
  match strs with
  | [] => .ok []
  | s :: rest =>
    match parseValue s bitSize with
    | .error e => .error e
    | .ok p =>
      match parseSlice rest bitSize with
      | .error e => .error e
      | .ok ps => .ok (p :: ps)

/-- Extracts the Go `[]string` behind a decoded value (the type
assertion `parsed.([]string)` on the element level). -/
def asStrings : List Value → Option (List String)
  | [] => some []
  | .vStr s :: rest => (asStrings rest).map (fun ss => s :: ss)
  | _ => none

/-- Model of `toComplex`: converts the string (or string-slice) decode
result into the declared complex field type; pointers wrap the
converted pointee.  Go panics on an unsupported type or a failing type
assertion; both are unreachable from `callField` (which calls in only
when `parseType` substituted the type) and are modelled as errors. -/
def toComplex (parsed : Value) (fieldType : Ty) : Except String Value :=
  match fieldType with
  | .tC64 =>
    match parsed with
    | .vStr s =>
      match parseValue s 64 with
      | .error e => .error e
      | .ok p => .ok (.vC64 p.1 p.2)
    | _ => .error "type assertion: parsed value is not a string"
  | .tC128 =>
    match parsed with
    | .vStr s =>
      match parseValue s 128 with
      | .error e => .error e
      | .ok p => .ok (.vC128 p.1 p.2)
    | _ => .error "type assertion: parsed value is not a string"
  | .tSlice e =>
    match e with
    | .tC64 => toComplexSlice parsed 64
    | .tC128 => toComplexSlice parsed 128
    | _ => .error "unsupported type"
  | .tArray e _ =>
    match e with
    | .tC64 => toComplexSlice parsed 64
    | .tC128 => toComplexSlice parsed 128
    | _ => .error "unsupported type"
  | .tPtr t =>
    match toComplex parsed t with
    | .ok result => .ok (.vPtr t.zero (some result))
    | .error e => .error e
  | _ => .error "unsupported type"
where
  /-- Slice/array element conversion shared by `toComplex`; the result
  is a slice value, as `parseSlice` returns a Go slice for array fields
  as well. -/
  toComplexSlice (parsed : Value) (bitSize : Nat) : Except String Value :=
    match parsed with
    | .vSlice _ xs =>
      match asStrings xs with
      | some strs =>
        match parseSlice strs bitSize with
        | .error e => .error e
        | .ok ps =>
          if bitSize = 64 then
            .ok (.vSlice .tC64 (ps.map (fun p => .vC64 p.1 p.2)))
          else
            .ok (.vSlice .tC128 (ps.map (fun p => .vC128 p.1 p.2)))
      | none => .error "type assertion: parsed value is not a string slice"
    | _ => .error "type assertion: parsed value is not a string slice"

/-! ### The YAML decode model -/

/-- The trimmed text opens a flow sequence. -/
def startsSeq (s : String) : Bool :=
  match (strTrim s).data with
  | '[' :: _ => true
  | _ => false

/-- Items of a flat flow sequence `[a, b, c]`: trimmed segments of the
bracket-delimited text; `none` when the text is no such sequence. -/
def seqItems (s : String) : Option (List String) :=
  match (strTrim s).data with
  | '[' :: rest =>
    match rest.reverse with
    | ']' :: revInner =>
      let inner : String := ⟨revInner.reverse⟩
      if strTrim inner = "" then some []
      else some ((strSplitComma inner).map strTrim)
    | _ => none
  | _ => none

/-- Scalar decode into a scalar target type. -/
def yamlDecodeItem (t : Ty) (s : String) : Except String Value :=
  match t with
  | .tString => .ok (.vStr s)
  | .tInt =>
    match strToInt s with
    | some n => .ok (.vInt n)
    | none => .error ("yaml: cannot unmarshal " ++ s ++ " into int")
  | .tBool =>
    if s = "true" then .ok (.vBool true)
    else if s = "false" then .ok (.vBool false)
    else .error ("yaml: cannot unmarshal " ++ s ++ " into bool")
  | _ => .error "yaml: nested collection values are not supported by this decoder model"

/-- Decodes every sequence item, stopping at the first failure. -/
def yamlDecodeItems (t : Ty) : List String → Except String (List Value)
  | [] => .ok []
  | s :: rest =>
    match yamlDecodeItem t s with
    | .error e => .error e
    | .ok v =>
      match yamlDecodeItems t rest with
      | .error e => .error e
      | .ok vs => .ok (v :: vs)

/-- Model of `yaml.Unmarshal` into a freshly allocated target of the
given type: plain scalars into scalar targets, `null` into pointers,
flat flow sequences into slice/array targets.  Complex kinds and (in
this model) mapping and struct targets fail. -/
def yamlDecode : Ty → String → Except String Value
  | .tString, s =>
    if startsSeq s then .error "yaml: cannot unmarshal a sequence into string"
    else .ok (.vStr (strTrim s))
  | .tInt, s =>
    if startsSeq s then .error "yaml: cannot unmarshal a sequence into int"
    else yamlDecodeItem .tInt (strTrim s)
  | .tBool, s =>
    if startsSeq s then .error "yaml: cannot unmarshal a sequence into bool"
    else yamlDecodeItem .tBool (strTrim s)
  | .tC64, _ => .error "yaml: cannot unmarshal into complex64"
  | .tC128, _ => .error "yaml: cannot unmarshal into complex128"
  | .tPtr t, s =>
    if strTrim s = "null" || strTrim s = "~" then .ok (.vPtr (Ty.zero t) none)
    else
      match yamlDecode t s with
      | .error e => .error e
      | .ok v => .ok (.vPtr (Ty.zero t) (some v))
  | .tSlice t, s =>
    match seqItems s with
    | some items =>
      match yamlDecodeItems t items with
      | .error e => .error e
      | .ok vs => .ok (.vSlice t vs)
    | none => .error "yaml: cannot unmarshal a scalar into a sequence"
  | .tArray t _, s =>
    match seqItems s with
    | some items =>
      match yamlDecodeItems t items with
      | .error e => .error e
      | .ok vs => .ok (.vArray t vs)
    | none => .error "yaml: cannot unmarshal a scalar into a sequence"
  | .tMap _, _ => .error "yaml: mapping decode is not supported by this decoder model"
  | .tStruct _, _ => .error "yaml: struct decode is not supported by this decoder model"

/-! ### The walker -/

/-- Model of `(*TagWalker).callComplex`: converts the decoded value to
the complex field type; on failure it records a complex-parsing error
and falls back to the unconverted value. -/
def TagWalker.callComplex (_w : TagWalker) (path : String) (value : Value)
    (fieldType : Ty) : List Reg × List WErr :=
  match toComplex value fieldType with
  | .error err =>
    ([(path, value)], [NewErrTagWalker "complex parsing" path value err])
  | .ok number => ([(path, number)], [])

/-- Model of `(*TagWalker).callField`: with a non-empty default tag,
decodes the tag text at the parse type; a YAML failure records a
yaml-parsing error and falls back to the raw tag text; a substituted
parse type goes through the complex conversion; otherwise the decoded
value is emitted. -/
def TagWalker.callField (w : TagWalker) (path : String) (f : FieldT) :
    List Reg × List WErr :=
  if fdtag f = "" then ([], [])
  else
    match yamlDecode (parseType (fty f)) (fdtag f) with
    | .error err =>
      ([(path, .vStr (fdtag f))],
        [NewErrTagWalker "yaml parsing" path (.vStr (fdtag f)) err])
    | .ok parsed =>
      if Ty.beq (parseType (fty f)) (fty f) then ([(path, parsed)], [])
      else TagWalker.callComplex w path parsed (fty f)

mutual
/-- Model of `(*TagWalker).walk`: nil pointers are materialized as the
pointee's zero value, slices/arrays/maps recurse element-wise with
extended paths, structs fan out over their fields, and remaining valid
values are emitted when non-zero or when zero-reporting is on. -/
def TagWalker.walk (w : TagWalker) (path : String) (v : Value) :
    List Reg × List WErr :=
  match v with
  | .vPtr z none => TagWalker.walk w path z
  | .vPtr _ (some x) => TagWalker.walk w path x
  | .vSlice _ xs => TagWalker.walkItems w path 0 xs
  | .vArray _ xs => TagWalker.walkItems w path 0 xs
  | .vMap _ kvs => TagWalker.walkEntries w path kvs
  | .vStruct fs => TagWalker.walkStruct w path fs
  | v =>
    if v.isValid && (!v.isZero || w.zero) then ([(path, v)], [])
    else ([], [])

/-- Index loop of `walk` over slice/array elements. -/
def TagWalker.walkItems (w : TagWalker) (path : String) (index : Nat) :
    List Value → List Reg × List WErr
  | [] => ([], [])
  | x :: xs =>
    let r := TagWalker.walk w (TagWalker.path path (toString index)) x
    let s := TagWalker.walkItems w path (index + 1) xs
    (r.1 ++ s.1, r.2 ++ s.2)

/-- Key loop of `walk` over map entries. -/
def TagWalker.walkEntries (w : TagWalker) (path : String) :
    List (String × Value) → List Reg × List WErr
  | [] => ([], [])
  | (k, x) :: kvs =>
    let r := TagWalker.walk w (TagWalker.path path k) x
    let s := TagWalker.walkEntries w path kvs
    (r.1 ++ s.1, r.2 ++ s.2)

/-- Model of `(*TagWalker).walkStruct`: walks every exported field at
its effective path. -/
def TagWalker.walkStruct (w : TagWalker) (path : String) :
    List (FieldT × Value) → List Reg × List WErr
  | [] => ([], [])
  | (f, x) :: fs =>
    let r :=
      if isExported (fname f) then
        TagWalker.walkField w (TagWalker.field path f) f x
      else ([], [])
    let s := TagWalker.walkStruct w path fs
    (r.1 ++ s.1, r.2 ++ s.2)

/-- Model of `(*TagWalker).walkField`: struct fields with a default tag
are terminal, struct fields without recurse; nil pointers materialize
the pointee zero value; collections recurse when non-empty and always
offer the tag to `callField`; remaining values emit their current value
when valid and non-zero, and otherwise offer the tag to `callField`
when a tag is present or zero-reporting is on.  (The recursion into a
non-empty collection is `w.walk(path, value)` in Go; the model enters
the matching `walk` loop directly, which is definitionally the same
call.) -/
def TagWalker.walkField (w : TagWalker) (path : String) (f : FieldT)
    (v : Value) : List Reg × List WErr :=
  match v with
  | .vStruct fs =>
    if fdtag f ≠ "" then TagWalker.callField w path f
    else TagWalker.walkStruct w path fs
  | .vPtr z none => TagWalker.walkField w path f z
  | .vPtr _ (some x) => TagWalker.walkField w path f x
  | .vSlice _ xs =>
    let r :=
      if xs.length ≠ 0 then TagWalker.walkItems w path 0 xs else ([], [])
    let s := TagWalker.callField w path f
    (r.1 ++ s.1, r.2 ++ s.2)
  | .vArray _ xs =>
    let r :=
      if xs.length ≠ 0 then TagWalker.walkItems w path 0 xs else ([], [])
    let s := TagWalker.callField w path f
    (r.1 ++ s.1, r.2 ++ s.2)
  | .vMap _ kvs =>
    let r :=
      if kvs.length ≠ 0 then TagWalker.walkEntries w path kvs else ([], [])
    let s := TagWalker.callField w path f
    (r.1 ++ s.1, r.2 ++ s.2)
  | v =>
    if v.isValid && !v.isZero then ([(path, v)], [])
    else if fdtag f ≠ "" || w.zero then TagWalker.callField w path f
    else ([], [])
end

/-- Model of `(*TagWalker).Walk`: lower-cases the root path, walks the
value, appends the new errors to the instance accumulator, and returns
the updated instance, the emitted registrations, and the joined error
(`none` models the `nil` result of `errors.Join` on an empty
accumulator). -/
def TagWalker.Walk (w : TagWalker) (path : String) (v : Value) :
    TagWalker × List Reg × Option (List WErr) :=
  let r := TagWalker.walk w (strLower path) v
  let errs := w.errors ++ r.2
  (⟨w.dtag, w.mtag, w.zero, errs⟩, r.1,
    if errs.isEmpty then none else some errs)

/-! ### Shape classifiers used by the theorems -/

/-- The value falls into the walker's default (scalar) dispatch branch:
its kind is none of pointer, slice, array, map, or struct. -/
def Value.isScalarKind : Value → Bool
  | .vPtr _ _ => false
  | .vSlice _ _ => false
  | .vArray _ _ => false
  | .vMap _ _ => false
  | .vStruct _ => false
  | _ => true

/-- The value falls into the walker's collection dispatch branch. -/
def Value.isCollectionKind : Value → Bool
  | .vSlice _ _ => true
  | .vArray _ _ => true
  | .vMap _ _ => true
  | _ => false

/-- Model of `reflect.Value.Len` on the collection kinds. -/
def Value.collLen : Value → Nat
  | .vSlice _ xs => xs.length
  | .vArray _ xs => xs.length
  | .vMap _ kvs => kvs.length
  | _ => 0

/-! ### Basic string lemmas -/

/-- Appending to the empty string is the identity. -/
theorem str_nil_append (s : String) : "" ++ s = s := by
  cases s with
  | mk l => exact congrArg String.mk (List.nil_append l)

/-- Appending the empty string is the identity. -/
theorem str_append_nil (s : String) : s ++ "" = s := by
  cases s with
  | mk l => exact congrArg String.mk (List.append_nil l)

/-- String append is associative. -/
theorem str_append_assoc (a b c : String) : a ++ b ++ c = a ++ (b ++ c) := by
  cases a with
  | mk x =>
    cases b with
    | mk y =>
      cases c with
      | mk z => exact congrArg String.mk (List.append_assoc x y z)

/-! ### Claim C4: zero-reporting for untagged zero scalar fields -/

/-- C4.  Behavior of the walker at the claim's inputs: an untagged,
zero-valued scalar struct field produces no registration with
zero-reporting disabled, in line with the claim — but it also produces
no registration with zero-reporting enabled, because `walkField`
delegates to `callField`, which returns without emitting anything when
the default tag is empty.  This contradicts the claim (and the
repository's own test `tag-yaml-zero-no-tags`, which expects a single
registration `("s", "")` in the enabled case). -/
theorem c4_zero_reporting_behavior :
    TagWalker.walkField (NewTagWalker "tag" "map" true) "s"
        ("S", "", "", .tString) (.vStr "") = ([], []) ∧
    (TagWalker.Walk (NewTagWalker "tag" "map" true) ""
        (.vStruct [(("S", "", "", .tString), .vStr "")])).2 = ([], none) ∧
    (TagWalker.Walk (NewTagWalker "tag" "map" false) ""
        (.vStruct [(("S", "", "", .tString), .vStr "")])).2 = ([], none) :=
  ⟨rfl, rfl, rfl⟩

/-! ### Claim C7: nil pointer materialization -/

/-- C7.  A nil pointer(-to-struct) field is walked as the materialized
zero value of its pointee type, so synthetic descendant fields still
produce registrations (subject to the usual default-tag/zero-reporting
rules): the first two conjuncts state the materialization equations of
`walkField` and `walk`, and the last evaluates a nil pointer-to-struct
field whose descendant carries a default tag.  The walker is a pure
function of the input value here — it returns registrations and errors
without producing any modified value, matching the Go code, which only
rebinds a local `reflect.Value` (`value = reflect.New(...)`) and never
writes through the caller's nil pointer. -/
theorem c7_nil_pointer_materialization :
    (∀ (w : TagWalker) (path : String) (f : FieldT) (z : Value),
      TagWalker.walkField w path f (.vPtr z none) =
        TagWalker.walkField w path f z) ∧
    (∀ (w : TagWalker) (path : String) (z : Value),
      TagWalker.walk w path (.vPtr z none) = TagWalker.walk w path z) ∧
    (TagWalker.Walk (NewTagWalker "default" "mapstructure" false) ""
        (.vStruct [(("P", "", "", .tPtr (.tStruct [("A", "1", "", .tInt)])),
                    .vPtr (.vStruct [(("A", "1", "", .tInt), .vInt 0)]) none)])).2 =
      ([("p.a", .vInt 1)], none) :=
  ⟨fun _ _ _ _ => rfl, fun _ _ _ => rfl, rfl⟩

/-! ### Claim C8: the error accumulator is per-instance state -/

/-- C8.  The error accumulator lives on the walker instance and is
never reset: after two successive `Walk` calls on a fresh walker, the
instance holds the errors of both calls in order, and the error
returned by the second call is the join of the errors accumulated
during both calls (`none`, modelling `nil`, exactly when both calls
were error-free). -/
theorem c8_error_accumulator_per_instance :
    ∀ (dtag mtag : String) (zf : Bool) (p1 p2 : String) (v1 v2 : Value),
      ((TagWalker.Walk ((TagWalker.Walk (NewTagWalker dtag mtag zf) p1 v1).1)
          p2 v2).1.errors =
        (TagWalker.walk (NewTagWalker dtag mtag zf) (strLower p1) v1).2 ++
          (TagWalker.walk (TagWalker.Walk (NewTagWalker dtag mtag zf) p1 v1).1
            (strLower p2) v2).2) ∧
      ((TagWalker.Walk ((TagWalker.Walk (NewTagWalker dtag mtag zf) p1 v1).1)
          p2 v2).2.2 =
        (if ((TagWalker.walk (NewTagWalker dtag mtag zf) (strLower p1) v1).2 ++
              (TagWalker.walk (TagWalker.Walk (NewTagWalker dtag mtag zf) p1 v1).1
                (strLower p2) v2).2).isEmpty
          then none
          else some
            ((TagWalker.walk (NewTagWalker dtag mtag zf) (strLower p1) v1).2 ++
              (TagWalker.walk (TagWalker.Walk (NewTagWalker dtag mtag zf) p1 v1).1
                (strLower p2) v2).2))) :=
  fun _ _ _ _ _ _ _ => ⟨rfl, rfl⟩

/-- C8 witness.  Two concrete `Walk` calls on one fresh instance: the
first fails to parse a default tag, and the second call's result joins
that first-call error with the second call's error. -/
theorem c8_error_accumulator_witness :
    (TagWalker.Walk
        ((TagWalker.Walk (NewTagWalker "tag" "map" false) ""
          (.vStruct [(("S", "a,b", "", .tSlice .tString), .vSlice .tString [])])).1)
        "" (.vStruct [(("C", "invalid", "", .tC64), .vC64 0 0)])).2.2 =
      some
        [NewErrTagWalker "yaml parsing" "s" (.vStr "a,b")
          "yaml: cannot unmarshal a scalar into a sequence",
         NewErrTagWalker "complex parsing" "c" (.vStr "invalid")
          "ParseComplex: parsing invalid: invalid syntax (bitSize 64)"] := by
  have h := c8_error_accumulator_per_instance "tag" "map" false "" ""
    (.vStruct [(("S", "a,b", "", .tSlice .tString), .vSlice .tString [])])
    (.vStruct [(("C", "invalid", "", .tC64), .vC64 0 0)])
  exact h.2.trans rfl

/-! ### Helper lemmas about `callField` -/

/-- An empty default tag makes `callField` a no-op. -/
theorem callField_empty (w : TagWalker) (p : String) (f : FieldT)
    (h : fdtag f = "") : TagWalker.callField w p f = ([], []) := by
  unfold TagWalker.callField
  rw [if_pos h]

/-- A successful decode at an unsubstituted parse type makes
`callField` emit exactly the decoded value at the field's path. -/
theorem callField_ok (w : TagWalker) (p : String) (f : FieldT) (parsed : Value)
    (hd : fdtag f ≠ "")
    (hok : yamlDecode (parseType (fty f)) (fdtag f) = .ok parsed)
    (hb : Ty.beq (parseType (fty f)) (fty f) = true) :
    TagWalker.callField w p f = ([(p, parsed)], []) := by
  unfold TagWalker.callField
  rw [if_neg hd, hok]
  simp [hb]

/-! ### Claim C1: conversion errors are accumulated, raw literals emitted -/

/-- C1.  A failed literal parse records a conversion error holding the
message, path, offending literal value, and underlying cause, and still
emits the unconverted value at the path: the first conjunct covers the
YAML decode failure (fallback: the raw tag text), the second the
complex conversion failure (fallback: the decoded-but-unconverted
string form).  The third conjunct is the struct loop's step equation,
showing traversal continues with the remaining fields regardless of
the head field's outcome, and the last shows `Walk` returns the join
of all accumulated errors (`none`, modelling `nil`, exactly when the
accumulator stayed empty). -/
theorem c1_conversion_error_handling :
    (∀ (w : TagWalker) (path : String) (f : FieldT) (e : String),
      fdtag f ≠ "" →
      yamlDecode (parseType (fty f)) (fdtag f) = .error e →
      TagWalker.callField w path f =
        ([(path, .vStr (fdtag f))],
         [NewErrTagWalker "yaml parsing" path (.vStr (fdtag f)) e])) ∧
    (∀ (w : TagWalker) (path : String) (value : Value) (t : Ty) (e : String),
      toComplex value t = .error e →
      TagWalker.callComplex w path value t =
        ([(path, value)], [NewErrTagWalker "complex parsing" path value e])) ∧
    (∀ (w : TagWalker) (path : String) (f : FieldT) (x : Value)
        (fs : List (FieldT × Value)),
      TagWalker.walkStruct w path ((f, x) :: fs) =
        ((if isExported (fname f) then
            TagWalker.walkField w (TagWalker.field path f) f x
          else ([], [])).1 ++ (TagWalker.walkStruct w path fs).1,
         (if isExported (fname f) then
            TagWalker.walkField w (TagWalker.field path f) f x
          else ([], [])).2 ++ (TagWalker.walkStruct w path fs).2)) ∧
    (∀ (w : TagWalker) (path : String) (v : Value),
      (TagWalker.Walk w path v).2.2 =
        (if (w.errors ++ (TagWalker.walk w (strLower path) v).2).isEmpty
          then none
          else some (w.errors ++ (TagWalker.walk w (strLower path) v).2))) := by
  refine ⟨?_, ?_, ?_, ?_⟩
  · intro w path f e hd he
    unfold TagWalker.callField
    rw [if_neg hd, he]
  · intro w path v t e he
    unfold TagWalker.callComplex
    rw [he]
  · intro w path f x fs
    rfl
  · intro w path v
    rfl

/-- C1 witness.  A `[]string` field tagged `"a,b"` fails the YAML
decode (a plain scalar cannot populate a sequence target): the error
carries path, literal and cause, and the raw literal is emitted. -/
theorem c1_conversion_error_handling_witness :
    TagWalker.callField (NewTagWalker "tag" "map" false) "s"
        ("S", "a,b", "", .tSlice .tString) =
      ([("s", .vStr "a,b")],
       [NewErrTagWalker "yaml parsing" "s" (.vStr "a,b")
         "yaml: cannot unmarshal a scalar into a sequence"]) :=
  c1_conversion_error_handling.1 _ "s" _ _ (by decide) rfl

/-! ### Claim C2: squash flattening -/

/-- C2.  A rename tag with an empty name component and a `squash`
directive on a struct(-pointer) typed field keeps the parent path
unchanged, so child fields register as direct children of the parent
path; concretely, a root-level field `S struct{A int}` tagged
`",squash"` registers its child at path `"a"`, not `"s.a"`. -/
theorem c2_squash_flattening :
    (∀ (path : String) (f : FieldT) (rest : List String),
      strSplitComma (fmtag f) = "" :: rest →
      rest.contains "squash" = true →
      TagWalker.isStruct f = true →
      TagWalker.field path f = path) ∧
    (TagWalker.Walk (NewTagWalker "default" "mapstructure" false) ""
        (.vStruct [(("S", "", ",squash", .tStruct [("A", "1", "", .tInt)]),
                    .vStruct [(("A", "1", "", .tInt), .vInt 0)])])).2.1 =
      [("a", .vInt 1)] := by
  constructor
  · intro path f rest h1 h2 h3
    have hm : fmtag f ≠ "" := by
      intro h
      rw [h] at h1
      have : rest = [] := by
        have := h1.symm
        simpa [strSplitComma, splitOnComma] using this
      rw [this] at h2
      simp at h2
    unfold TagWalker.field
    rw [if_neg hm, h1]
    show (if TagWalker.isStruct f && rest.contains "squash" then path
          else if ("" : String) ≠ "" then TagWalker.path path ""
          else TagWalker.path path (fname f)) = path
    rw [if_pos (show (TagWalker.isStruct f && rest.contains "squash") = true by
      rw [h3, h2]; rfl)]
  · rfl

/-- C2 witness.  A squashed struct field with an empty rename name
keeps the parent path. -/
theorem c2_squash_flattening_witness :
    TagWalker.field "parent" ("S", "", ",squash", .tStruct [("A", "", "", .tInt)]) =
      "parent" :=
  c2_squash_flattening.1 "parent" _ ["squash"] rfl rfl rfl

/-! ### Claim C3: path segment case handling -/

/-- C3 counterexample.  The claim states that an explicit rename-tag
name `"MyField"` is used verbatim with its case preserved; the code
lower-cases it like every other segment: the effective path is
`"myfield"`, not `"MyField"`, and a full walk registers at the
lower-cased path.  (The repository's own test `map-name` agrees: a
rename tag `"X"` registers at path `"x"`.) -/
theorem c3_counterexample :
    TagWalker.field "" ("M", "", "MyField", .tString) = "myfield" ∧
    ¬ TagWalker.field "" ("M", "", "MyField", .tString) = "MyField" ∧
    (TagWalker.Walk (NewTagWalker "tag" "map" false) ""
        (.vStruct [(("M", "any", "MyField", .tString), .vStr "")])).2.1 =
      [("myfield", .vStr "any")] :=
  ⟨rfl, by decide, rfl⟩

/-- C3 (amended).  A field `MyField` with no rename tag produces the
lower-cased segment `"myfield"`; an explicit rename-tag name is *not*
used verbatim — the path builder lower-cases every segment, so the
rename name `"MyField"` also produces `"myfield"`.  The first conjunct
covers the empty rename tag, the second shows a non-squashed explicit
rename name becomes a path segment through the same lower-casing path
builder, and the third states the path builder itself. -/
theorem c3_path_case_handling :
    (∀ (p : String) (f : FieldT), fmtag f = "" →
      TagWalker.field p f = TagWalker.path p (fname f)) ∧
    (∀ (p : String) (f : FieldT) (arg0 : String) (rest : List String),
      strSplitComma (fmtag f) = arg0 :: rest →
      fmtag f ≠ "" →
      (TagWalker.isStruct f && rest.contains "squash") = false →
      arg0 ≠ "" →
      TagWalker.field p f = TagWalker.path p arg0) ∧
    (∀ (p n : String),
      TagWalker.path p n =
        if p ≠ "" then p ++ "." ++ strLower n else strLower n) ∧
    TagWalker.field "" ("MyField", "", "", .tString) = "myfield" ∧
    TagWalker.field "" ("M", "", "MyField", .tString) = "myfield" := by
  refine ⟨?_, ?_, fun p n => rfl, rfl, rfl⟩
  · intro p f h
    unfold TagWalker.field
    rw [if_pos h]
  · intro p f arg0 rest h1 h2 h3 h4
    unfold TagWalker.field
    rw [if_neg h2, h1]
    show (if TagWalker.isStruct f && rest.contains "squash" then p
          else if arg0 ≠ "" then TagWalker.path p arg0
          else TagWalker.path p (fname f)) = TagWalker.path p arg0
    rw [if_neg (show ¬(TagWalker.isStruct f && rest.contains "squash") = true by
      rw [h3]; exact Bool.false_ne_true), if_pos h4]

/-- C3 witness.  The explicit rename name `"MyField"` goes through the
lower-casing path builder. -/
theorem c3_path_case_handling_witness :
    TagWalker.field "" ("M", "", "MyField", .tString) =
      TagWalker.path "" "MyField" :=
  c3_path_case_handling.2.1 "" ("M", "", "MyField", .tString) "MyField" []
    rfl (by decide) rfl (by decide)

/-! ### Claim C5: complex64 default tag parsing -/

/-- C5.  A `complex64` field tagged `"64+2i"` goes through the
two-phase parse: `parseType` substitutes the string type, the YAML
decode yields the string `"64+2i"`, and the complex conversion at
64-bit size yields the complex value with components 64 and 2; a
zero-valued field of this shape emits exactly that registration at its
path with no error, and a full `Walk` over such a struct returns the
registration and a `nil` joined error. -/
theorem c5_complex64_default :
    parseType .tC64 = .tString ∧
    yamlDecode .tString "64+2i" = .ok (.vStr "64+2i") ∧
    toComplex (.vStr "64+2i") .tC64 = .ok (.vC64 64 2) ∧
    (∀ (w : TagWalker) (path : String) (f : FieldT),
      fty f = .tC64 → fdtag f = "64+2i" →
      TagWalker.walkField w path f (.vC64 0 0) = ([(path, .vC64 64 2)], [])) ∧
    (TagWalker.Walk (NewTagWalker "default" "mapstructure" false) ""
        (.vStruct [(("C64", "64+2i", "", .tC64), .vC64 0 0)])).2 =
      ([("c64", .vC64 64 2)], none) := by
  refine ⟨rfl, rfl, rfl, ?_, rfl⟩
  intro w path f h1 h2
  have step :
      TagWalker.walkField w path f (.vC64 0 0) =
        if fdtag f ≠ "" || w.zero then TagWalker.callField w path f
        else ([], []) := rfl
  rw [step, h2]
  simp only [ne_eq]
  rw [if_pos (by simp)]
  unfold TagWalker.callField
  rw [h1, h2]
  rfl

/-- C5 witness.  The concrete `complex64` field from the claim. -/
theorem c5_complex64_default_witness :
    TagWalker.walkField (NewTagWalker "default" "mapstructure" false) "c64"
        ("C64", "64+2i", "", .tC64) (.vC64 0 0) = ([("c64", .vC64 64 2)], []) :=
  c5_complex64_default.2.2.2.1 _ "c64" _ rfl rfl

/-! ### Claim C6: explicit-value precedence -/

/-- C6 counterexample.  The claim quantifies over *every* struct field
with a default tag and a valid, non-zero current value.  A slice field
`S []int` holding `[5]` (valid, non-zero) and tagged `"[1]"` violates
it: the registration emitted at the field's own path `"s"` carries the
*parsed tag value* `[1]`, not the current value `[5]` (the current
value surfaces only at the child path `"s.0"`), so the default tag is
both parsed and registered. -/
theorem c6_counterexample :
    (Value.vSlice .tInt [.vInt 5]).isValid = true ∧
    (Value.vSlice .tInt [.vInt 5]).isZero = false ∧
    TagWalker.walkField (NewTagWalker "default" "mapstructure" false) "s"
        ("S", "[1]", "", .tSlice .tInt) (.vSlice .tInt [.vInt 5]) =
      ([("s.0", .vInt 5), ("s", .vSlice .tInt [.vInt 1])], []) ∧
    ¬ (Value.vSlice .tInt [.vInt 1]) = (Value.vSlice .tInt [.vInt 5]) :=
  ⟨rfl, rfl, rfl, by simp⟩

/-- C6 (amended).  For every struct field of *scalar* kind (the
walker's default dispatch branch: not a struct, pointer, slice, array,
or map) bearing a default tag and a valid, non-zero current value, the
emitted registration carries the current value and the default tag is
neither parsed nor registered. -/
theorem c6_explicit_value_precedence :
    ∀ (w : TagWalker) (path : String) (f : FieldT) (v : Value),
      fdtag f ≠ "" →
      v.isScalarKind = true → v.isValid = true → v.isZero = false →
      TagWalker.walkField w path f v = ([(path, v)], []) := by
  intro w path f v _hd hk hv hz
  cases v <;>
    simp_all [TagWalker.walkField, Value.isScalarKind, Value.isValid,
      Value.isZero]

/-- C6 witness.  An `int` field tagged `"1"` holding current value `7`
registers `7`. -/
theorem c6_explicit_value_precedence_witness :
    TagWalker.walkField (NewTagWalker "default" "mapstructure" false) "i"
        ("I", "1", "", .tInt) (.vInt 7) = ([("i", .vInt 7)], []) :=
  c6_explicit_value_precedence _ "i" _ _ (by decide) rfl rfl rfl

/-! ### Claim C9: collection fields and their default tags -/

/-- C9.  For a slice/array/map field with a non-empty default tag whose
literal decodes successfully at an unsubstituted parse type: a
non-empty current value recurses element-wise *and* additionally
registers the parsed tag value at the field's own path (after the
element registrations, carrying over any element errors); an empty
current value produces only the tag-derived registration; and an empty
collection field with an empty default tag produces no registration at
all. -/
theorem c9_collection_fields :
    ∀ (w : TagWalker) (path : String) (f : FieldT) (v : Value) (parsed : Value),
      v.isCollectionKind = true →
      fdtag f ≠ "" →
      yamlDecode (parseType (fty f)) (fdtag f) = .ok parsed →
      Ty.beq (parseType (fty f)) (fty f) = true →
      (v.collLen ≠ 0 →
        TagWalker.walkField w path f v =
          ((TagWalker.walk w path v).1 ++ [(path, parsed)],
           (TagWalker.walk w path v).2)) ∧
      (v.collLen = 0 →
        TagWalker.walkField w path f v = ([(path, parsed)], [])) ∧
      (∀ (g : FieldT), fdtag g = "" → v.collLen = 0 →
        TagWalker.walkField w path g v = ([], [])) := by
  intro w path f v parsed hk hd hok hb
  have hcf := callField_ok w path f parsed hd hok hb
  cases v with
  | vSlice t xs =>
    refine ⟨?_, ?_, ?_⟩
    · intro hlen
      have hl : xs.length ≠ 0 := hlen
      show ((if xs.length ≠ 0 then TagWalker.walkItems w path 0 xs
              else ([], [])).1 ++ (TagWalker.callField w path f).1,
            (if xs.length ≠ 0 then TagWalker.walkItems w path 0 xs
              else ([], [])).2 ++ (TagWalker.callField w path f).2) = _
      rw [if_pos hl, hcf, List.append_nil]
      rfl
    · intro hlen
      have hl : xs.length = 0 := hlen
      show ((if xs.length ≠ 0 then TagWalker.walkItems w path 0 xs
              else ([], [])).1 ++ (TagWalker.callField w path f).1,
            (if xs.length ≠ 0 then TagWalker.walkItems w path 0 xs
              else ([], [])).2 ++ (TagWalker.callField w path f).2) = _
      rw [if_neg (by simpa using hl), hcf]
      rfl
    · intro g hg hlen
      have hl : xs.length = 0 := hlen
      show ((if xs.length ≠ 0 then TagWalker.walkItems w path 0 xs
              else ([], [])).1 ++ (TagWalker.callField w path g).1,
            (if xs.length ≠ 0 then TagWalker.walkItems w path 0 xs
              else ([], [])).2 ++ (TagWalker.callField w path g).2) = _
      rw [if_neg (by simpa using hl), callField_empty w path g hg]
      rfl
  | vArray t xs =>
    refine ⟨?_, ?_, ?_⟩
    · intro hlen
      have hl : xs.length ≠ 0 := hlen
      show ((if xs.length ≠ 0 then TagWalker.walkItems w path 0 xs
              else ([], [])).1 ++ (TagWalker.callField w path f).1,
            (if xs.length ≠ 0 then TagWalker.walkItems w path 0 xs
              else ([], [])).2 ++ (TagWalker.callField w path f).2) = _
      rw [if_pos hl, hcf, List.append_nil]
      rfl
    · intro hlen
      have hl : xs.length = 0 := hlen
      show ((if xs.length ≠ 0 then TagWalker.walkItems w path 0 xs
              else ([], [])).1 ++ (TagWalker.callField w path f).1,
            (if xs.length ≠ 0 then TagWalker.walkItems w path 0 xs
              else ([], [])).2 ++ (TagWalker.callField w path f).2) = _
      rw [if_neg (by simpa using hl), hcf]
      rfl
    · intro g hg hlen
      have hl : xs.length = 0 := hlen
      show ((if xs.length ≠ 0 then TagWalker.walkItems w path 0 xs
              else ([], [])).1 ++ (TagWalker.callField w path g).1,
            (if xs.length ≠ 0 then TagWalker.walkItems w path 0 xs
              else ([], [])).2 ++ (TagWalker.callField w path g).2) = _
      rw [if_neg (by simpa using hl), callField_empty w path g hg]
      rfl
  | vMap t kvs =>
    refine ⟨?_, ?_, ?_⟩
    · intro hlen
      have hl : kvs.length ≠ 0 := hlen
      show ((if kvs.length ≠ 0 then TagWalker.walkEntries w path kvs
              else ([], [])).1 ++ (TagWalker.callField w path f).1,
            (if kvs.length ≠ 0 then TagWalker.walkEntries w path kvs
              else ([], [])).2 ++ (TagWalker.callField w path f).2) = _
      rw [if_pos hl, hcf, List.append_nil]
      rfl
    · intro hlen
      have hl : kvs.length = 0 := hlen
      show ((if kvs.length ≠ 0 then TagWalker.walkEntries w path kvs
              else ([], [])).1 ++ (TagWalker.callField w path f).1,
            (if kvs.length ≠ 0 then TagWalker.walkEntries w path kvs
              else ([], [])).2 ++ (TagWalker.callField w path f).2) = _
      rw [if_neg (by simpa using hl), hcf]
      rfl
    · intro g hg hlen
      have hl : kvs.length = 0 := hlen
      show ((if kvs.length ≠ 0 then TagWalker.walkEntries w path kvs
              else ([], [])).1 ++ (TagWalker.callField w path g).1,
            (if kvs.length ≠ 0 then TagWalker.walkEntries w path kvs
              else ([], [])).2 ++ (TagWalker.callField w path g).2) = _
      rw [if_neg (by simpa using hl), callField_empty w path g hg]
      rfl
  | vInvalid => simp [Value.isCollectionKind] at hk
  | vBool b => simp [Value.isCollectionKind] at hk
  | vInt n => simp [Value.isCollectionKind] at hk
  | vStr s => simp [Value.isCollectionKind] at hk
  | vC64 re im => simp [Value.isCollectionKind] at hk
  | vC128 re im => simp [Value.isCollectionKind] at hk
  | vPtr z inner => simp [Value.isCollectionKind] at hk
  | vStruct fs => simp [Value.isCollectionKind] at hk

/-- C9 witness.  A non-empty `[]int` field holding `[7]` and tagged
`"[1,2]"` registers the element at `"s.0"` and the parsed tag at
`"s"`. -/
theorem c9_collection_fields_witness :
    TagWalker.walkField (NewTagWalker "default" "mapstructure" false) "s"
        ("S", "[1,2]", "", .tSlice .tInt) (.vSlice .tInt [.vInt 7]) =
      ([("s.0", .vInt 7), ("s", .vSlice .tInt [.vInt 1, .vInt 2])], []) :=
  ((c9_collection_fields (NewTagWalker "default" "mapstructure" false) "s"
      ("S", "[1,2]", "", .tSlice .tInt) (.vSlice .tInt [.vInt 7])
      (.vSlice .tInt [.vInt 1, .vInt 2]) rfl (by decide) rfl rfl).1
    (by decide)).trans rfl

/-! ### Path-prefix invariant of the walker (claim C10) -/

/-- The path builder only extends the parent path. -/
theorem path_extends (p n : String) : ∃ s, TagWalker.path p n = p ++ s := by
  unfold TagWalker.path
  by_cases h : p = ""
  · refine ⟨strLower n, ?_⟩
    rw [if_neg (by simp [h]), h, str_nil_append]
  · exact ⟨"." ++ strLower n, by rw [if_pos h, str_append_assoc]⟩

/-- The field path builder only extends the parent path (a squashed
field keeps it unchanged). -/
theorem field_extends (p : String) (f : FieldT) :
    ∃ s, TagWalker.field p f = p ++ s := by
  unfold TagWalker.field
  by_cases hm : fmtag f = ""
  · rw [if_pos hm]
    exact path_extends p (fname f)
  · rw [if_neg hm]
    cases hsp : strSplitComma (fmtag f) with
    | nil => exact path_extends p (fname f)
    | cons arg0 rest =>
      show ∃ s, (if TagWalker.isStruct f && rest.contains "squash" then p
          else if arg0 ≠ "" then TagWalker.path p arg0
          else TagWalker.path p (fname f)) = p ++ s
      by_cases hsq : (TagWalker.isStruct f && rest.contains "squash") = true
      · rw [if_pos hsq]
        exact ⟨"", (str_append_nil p).symm⟩
      · rw [if_neg hsq]
        by_cases ha : arg0 ≠ ""
        · rw [if_pos ha]
          exact path_extends p arg0
        · rw [if_neg ha]
          exact path_extends p (fname f)

/-- Every registration of `callComplex` sits at the given path. -/
theorem callComplex_paths (w : TagWalker) (p : String) (v : Value) (t : Ty) :
    ∀ r ∈ (TagWalker.callComplex w p v t).1, r.1 = p := by
  intro r hr
  unfold TagWalker.callComplex at hr
  cases h : toComplex v t with
  | error e =>
    rw [h] at hr
    rw [List.mem_singleton.mp hr]
  | ok n =>
    rw [h] at hr
    rw [List.mem_singleton.mp hr]

/-- Every registration of `callField` sits at the given path. -/
theorem callField_paths (w : TagWalker) (p : String) (f : FieldT) :
    ∀ r ∈ (TagWalker.callField w p f).1, r.1 = p := by
  intro r hr
  unfold TagWalker.callField at hr
  by_cases hd : fdtag f = ""
  · rw [if_pos hd] at hr
    simp at hr
  · rw [if_neg hd] at hr
    cases h : yamlDecode (parseType (fty f)) (fdtag f) with
    | error e =>
      rw [h] at hr
      rw [List.mem_singleton.mp hr]
    | ok parsed =>
      rw [h] at hr
      have hr2 : r ∈ (if Ty.beq (parseType (fty f)) (fty f) = true
          then (([(p, parsed)], []) : List Reg × List WErr)
          else TagWalker.callComplex w p parsed (fty f)).1 := hr
      by_cases hb : Ty.beq (parseType (fty f)) (fty f) = true
      · rw [if_pos hb] at hr2
        rw [List.mem_singleton.mp hr2]
      · rw [if_neg hb] at hr2
        exact callComplex_paths w p parsed (fty f) r hr2

/-- The scalar branch of `walk` registers at the given path only. -/
theorem walk_default_paths (w : TagWalker) (p : String) (v : Value) :
    ∀ r ∈ (if v.isValid && (!v.isZero || w.zero)
        then ([(p, v)], ([] : List WErr)) else ([], [])).1,
      ∃ s, r.1 = p ++ s := by
  intro r hr
  by_cases h : (v.isValid && (!v.isZero || w.zero)) = true
  · rw [if_pos h] at hr
    exact ⟨"", by rw [List.mem_singleton.mp hr, str_append_nil]⟩
  · rw [if_neg h] at hr
    simp at hr

/-- The default branch of `walkField` registers at the given path
only. -/
theorem walkField_default_paths (w : TagWalker) (p : String) (f : FieldT)
    (v : Value) :
    ∀ r ∈ (if v.isValid && !v.isZero then ([(p, v)], ([] : List WErr))
        else if fdtag f ≠ "" || w.zero then TagWalker.callField w p f
        else ([], [])).1,
      ∃ s, r.1 = p ++ s := by
  intro r hr
  by_cases h1 : (v.isValid && !v.isZero) = true
  · rw [if_pos h1] at hr
    exact ⟨"", by rw [List.mem_singleton.mp hr, str_append_nil]⟩
  · rw [if_neg h1] at hr
    by_cases h2 : (decide (fdtag f ≠ "") || w.zero) = true
    · rw [if_pos h2] at hr
      exact ⟨"", by rw [callField_paths w p f r hr, str_append_nil]⟩
    · rw [if_neg h2] at hr
      simp at hr

mutual
/-- Every registration of `walk` extends the walked path. -/
theorem walk_paths : ∀ (w : TagWalker) (p : String) (v : Value),
    ∀ r ∈ (TagWalker.walk w p v).1, ∃ s, r.1 = p ++ s
  | w, p, .vPtr z none => walk_paths w p z
  | w, p, .vPtr _ (some x) => walk_paths w p x
  | w, p, .vSlice _ xs => walkItems_paths w p 0 xs
  | w, p, .vArray _ xs => walkItems_paths w p 0 xs
  | w, p, .vMap _ kvs => walkEntries_paths w p kvs
  | w, p, .vStruct fs => walkStruct_paths w p fs
  | w, p, .vInvalid => walk_default_paths w p .vInvalid
  | w, p, .vBool b => walk_default_paths w p (.vBool b)
  | w, p, .vInt n => walk_default_paths w p (.vInt n)
  | w, p, .vStr s => walk_default_paths w p (.vStr s)
  | w, p, .vC64 a b => walk_default_paths w p (.vC64 a b)
  | w, p, .vC128 a b => walk_default_paths w p (.vC128 a b)

/-- Every registration of the element loop extends the walked path. -/
theorem walkItems_paths : ∀ (w : TagWalker) (p : String) (i : Nat)
    (xs : List Value),
    ∀ r ∈ (TagWalker.walkItems w p i xs).1, ∃ s, r.1 = p ++ s
  | w, p, i, [] => by
    intro r hr
    simp [TagWalker.walkItems] at hr
  | w, p, i, x :: xs => by
    intro r hr
    have hr' : r ∈ (TagWalker.walk w (TagWalker.path p (toString i)) x).1 ++
        (TagWalker.walkItems w p (i + 1) xs).1 := hr
    rcases List.mem_append.mp hr' with h | h
    · obtain ⟨s1, hs1⟩ := walk_paths w (TagWalker.path p (toString i)) x r h
      obtain ⟨s0, hs0⟩ := path_extends p (toString i)
      exact ⟨s0 ++ s1, by rw [hs1, hs0, str_append_assoc]⟩
    · exact walkItems_paths w p (i + 1) xs r h

/-- Every registration of the entry loop extends the walked path. -/
theorem walkEntries_paths : ∀ (w : TagWalker) (p : String)
    (kvs : List (String × Value)),
    ∀ r ∈ (TagWalker.walkEntries w p kvs).1, ∃ s, r.1 = p ++ s
  | w, p, [] => by
    intro r hr
    simp [TagWalker.walkEntries] at hr
  | w, p, (k, x) :: kvs => by
    intro r hr
    have hr' : r ∈ (TagWalker.walk w (TagWalker.path p k) x).1 ++
        (TagWalker.walkEntries w p kvs).1 := hr
    rcases List.mem_append.mp hr' with h | h
    · obtain ⟨s1, hs1⟩ := walk_paths w (TagWalker.path p k) x r h
      obtain ⟨s0, hs0⟩ := path_extends p k
      exact ⟨s0 ++ s1, by rw [hs1, hs0, str_append_assoc]⟩
    · exact walkEntries_paths w p kvs r h

/-- Every registration of the struct loop extends the walked path. -/
theorem walkStruct_paths : ∀ (w : TagWalker) (p : String)
    (fs : List (FieldT × Value)),
    ∀ r ∈ (TagWalker.walkStruct w p fs).1, ∃ s, r.1 = p ++ s
  | w, p, [] => by
    intro r hr
    simp [TagWalker.walkStruct] at hr
  | w, p, (f, x) :: fs => by
    intro r hr
    have hr' : r ∈ (if isExported (fname f) then
          TagWalker.walkField w (TagWalker.field p f) f x
        else ([], [])).1 ++ (TagWalker.walkStruct w p fs).1 := hr
    rcases List.mem_append.mp hr' with h | h
    · by_cases he : isExported (fname f) = true
      · rw [if_pos he] at h
        obtain ⟨s1, hs1⟩ := walkField_paths w (TagWalker.field p f) f x r h
        obtain ⟨s0, hs0⟩ := field_extends p f
        exact ⟨s0 ++ s1, by rw [hs1, hs0, str_append_assoc]⟩
      · rw [if_neg he] at h
        simp at h
    · exact walkStruct_paths w p fs r h

/-- Every registration of `walkField` extends the field's path. -/
theorem walkField_paths : ∀ (w : TagWalker) (p : String) (f : FieldT)
    (v : Value),
    ∀ r ∈ (TagWalker.walkField w p f v).1, ∃ s, r.1 = p ++ s
  | w, p, f, .vStruct fs => by
    intro r hr
    have hr' : r ∈ (if fdtag f ≠ "" then TagWalker.callField w p f
        else TagWalker.walkStruct w p fs).1 := hr
    by_cases hd : fdtag f ≠ ""
    · rw [if_pos hd] at hr'
      exact ⟨"", by rw [callField_paths w p f r hr', str_append_nil]⟩
    · rw [if_neg hd] at hr'
      exact walkStruct_paths w p fs r hr'
  | w, p, f, .vPtr z none => walkField_paths w p f z
  | w, p, f, .vPtr _ (some x) => walkField_paths w p f x
  | w, p, f, .vSlice _ xs => by
    intro r hr
    have hr' : r ∈ (if xs.length ≠ 0 then TagWalker.walkItems w p 0 xs
        else ([], [])).1 ++ (TagWalker.callField w p f).1 := hr
    rcases List.mem_append.mp hr' with h | h
    · by_cases hl : xs.length ≠ 0
      · rw [if_pos hl] at h
        exact walkItems_paths w p 0 xs r h
      · rw [if_neg hl] at h
        simp at h
    · exact ⟨"", by rw [callField_paths w p f r h, str_append_nil]⟩
  | w, p, f, .vArray _ xs => by
    intro r hr
    have hr' : r ∈ (if xs.length ≠ 0 then TagWalker.walkItems w p 0 xs
        else ([], [])).1 ++ (TagWalker.callField w p f).1 := hr
    rcases List.mem_append.mp hr' with h | h
    · by_cases hl : xs.length ≠ 0
      · rw [if_pos hl] at h
        exact walkItems_paths w p 0 xs r h
      · rw [if_neg hl] at h
        simp at h
    · exact ⟨"", by rw [callField_paths w p f r h, str_append_nil]⟩
  | w, p, f, .vMap _ kvs => by
    intro r hr
    have hr' : r ∈ (if kvs.length ≠ 0 then TagWalker.walkEntries w p kvs
        else ([], [])).1 ++ (TagWalker.callField w p f).1 := hr
    rcases List.mem_append.mp hr' with h | h
    · by_cases hl : kvs.length ≠ 0
      · rw [if_pos hl] at h
        exact walkEntries_paths w p kvs r h
      · rw [if_neg hl] at h
        simp at h
    · exact ⟨"", by rw [callField_paths w p f r h, str_append_nil]⟩
  | w, p, f, .vInvalid => walkField_default_paths w p f .vInvalid
  | w, p, f, .vBool b => walkField_default_paths w p f (.vBool b)
  | w, p, f, .vInt n => walkField_default_paths w p f (.vInt n)
  | w, p, f, .vStr s => walkField_default_paths w p f (.vStr s)
  | w, p, f, .vC64 a b => walkField_default_paths w p f (.vC64 a b)
  | w, p, f, .vC128 a b => walkField_default_paths w p f (.vC128 a b)
end

/-! ### Claim C10: the root path is lower-cased -/

/-- C10.  `Walk` lower-cases the caller's root path before traversal
(the registrations are exactly those of the internal walk at the
lower-cased root), and consequently every emitted registration path
starts with the lower-cased form of the caller's prefix. -/
theorem c10_root_path_lowercased :
    ∀ (w : TagWalker) (p : String) (v : Value),
      (TagWalker.Walk w p v).2.1 = (TagWalker.walk w (strLower p) v).1 ∧
      ∀ r ∈ (TagWalker.Walk w p v).2.1, ∃ s : String, r.1 = strLower p ++ s := by
  intro w p v
  refine ⟨rfl, ?_⟩
  intro r hr
  exact walk_paths w (strLower p) v r hr

/-- C10 witness.  Walking with the mixed-case root `"Root"` emits a
registration whose path starts with `"root"`. -/
theorem c10_root_path_lowercased_witness :
    ∃ s : String, (("root", Value.vInt 1) : Reg).1 = strLower "Root" ++ s :=
  (c10_root_path_lowercased (NewTagWalker "default" "mapstructure" false)
      "Root" (.vInt 1)).2 ("root", .vInt 1) (List.mem_singleton.mpr rfl)

end GoConfig
